import Mathlib

/-!
# Verification of the miroslava logging layer

Shallow embedding of the record-formatting and handler-lifecycle subsystem
of the `miroslava` repository (files `src/miroslava/utils/logger.py`,
`src/miroslava/utils/common.py`, `src/miroslava/config/internal.py` and
`src/_miroslava/utils/logging.py`, `src/_miroslava/utils/common.py`).

Python strings are embedded as `List Char`; dictionaries as functions into
`Option`; code that raises (`IndexError`, `KeyError`, a failing constructor)
returns `Option` / an explicit failure value.  The file is split into a
definitions part (the embedding) and a theorems part.
-/

namespace Miroslava

/-- Python strings are embedded as lists of characters. -/
abbrev Str := List Char

/-- Coerce a Lean string literal to the embedding type. -/
def str (s : String) : Str := s.data

/-- Decimal rendering of a natural number (Python `str(n)` / `"{}".format(n)`). -/
def natStr (n : Nat) : Str := (toString n).data

/-- Recursion worker for `strReplace`: structural on a fuel counter so that
the definition evaluates inside the kernel.  Every recursive call consumes
at least one character of `s` (the pattern is non-empty in the recursive
branches), so `s.length` fuel always suffices. -/
def strReplaceFuel : Nat → Str → Str → Str → Str
  | _, s, [], _ => s
  | 0, s, _, _ => s
  | fuel + 1, s, pat, rep =>
    match s with
    | [] => []
    | c :: rest =>
      if pat.isPrefixOf (c :: rest) then
        rep ++ strReplaceFuel fuel (List.drop pat.length (c :: rest)) pat rep
      else
        c :: strReplaceFuel fuel rest pat rep

/-- Python `s.replace(pat, rep)`: replace every (non-overlapping, leftmost)
occurrence of `pat` in `s` by `rep`.  The source only calls this with a
non-empty `pat` (a working directory, a path separator or `"{}"`), so the
`pat = []` case (which Python treats specially) returns `s` unchanged. -/
def strReplace (s pat rep : Str) : Str :=
  strReplaceFuel s.length s pat rep

/-- Split `s` at the first occurrence of `pat`, returning the part before and
the part after the occurrence; `none` when `pat` does not occur.  Used to
embed Python's `str.format` placeholder substitution. -/
def splitFirst (s pat : Str) : Option (Str × Str) :=
  match s with
  | [] => if pat = [] then some ([], []) else none
  | c :: rest =>
    if pat.isPrefixOf (c :: rest) then some ([], List.drop pat.length (c :: rest))
    else (splitFirst rest pat).map fun pr => (c :: pr.1, pr.2)

/-- Python `fmt.format(*args)` restricted to anonymous `{}` placeholders:
each argument replaces the leftmost remaining placeholder; surplus arguments
are ignored (as in Python).  Substituted text is not rescanned. -/
def pyFormat : Str → List Str → Str
  | f, [] => f
  | f, a :: rest =>
    match splitFirst f (str "{}") with
    | none => f
    | some (pre, post) => pre ++ a ++ pyFormat post rest

/-!
## `miroslava/config/internal.py`
-/

/-- `internal.py` line 58: format used for a raised exception. -/
def LOGGING_EXC_FMT : Str := str "{}: {} {} line {}"

/-- The `pathname` padding in `LOGGING_MSG_FMT` (`%(pathname)30s`, line 54). -/
def pathnamePadding : Nat := 30

/-- `logger.py` lines 97-98: the formatter's `limit` attribute is the padding
width extracted by `LOGGING_ATTR_RE` from the format string, minus 3.  For
the default `LOGGING_MSG_FMT` this is `30 - 3 = 27`. -/
def defaultLimit : Nat := pathnamePadding - 3

/-!
## `miroslava/utils/logger.py`: `Formatter` (lines 100-168)

`formatPath` receives the record's `pathname`; `cwd` stands for
`os.path.abspath(os.curdir)` and `sep` for `PATH_SEP` at format time.
`path[path[0] == PATH_SEP:]` raises `IndexError` on an empty string, hence
the `Option` result.
-/

/-- Lines 143-144 of `formatPath`: drop the last 3 characters (the `.py`
extension), strip every occurrence of the current working directory, drop one
leading separator and turn the remaining separators into dots.  `none` models
the `IndexError` raised by `path[0]` when the intermediate string is empty. -/
def normalizePath (cwd : Str) (sep : Char) (path : Str) : Option Str :=
  let p1 := strReplace (path.take (path.length - 3)) cwd []
  match p1 with
  | [] => none
  | c :: rest =>
    some (((c :: rest).drop (if c = sep then 1 else 0)).map
      (fun ch => if ch = sep then '.' else ch))

/-- Lines 145-146 of `formatPath`: if the normalized path is longer than the
limit, keep the trailing `limit` characters behind a `"..."` marker.
Python's `path[-limit:]` with `limit = 0` is `path[0:]`, the whole string. -/
def truncatePath (limit : Nat) (p : Str) : Str :=
  if limit < p.length then
    str "..." ++ (if limit = 0 then p else p.drop (p.length - limit))
  else p

/-- `Formatter.formatPath` (lines 141-147). -/
def formatPath (limit : Nat) (cwd : Str) (sep : Char) (path : Str) :
    Option Str :=
  if path = str "<stdin>" then some (str "shell")
  else (normalizePath cwd sep path).map (truncatePath limit)

/-- `Formatter.format`, lines 162-164: the location field of the rendered
line is the formatted path, with `.<funcName>()` appended when the record
did not originate at module level and the path is not the shell token. -/
def formatLocation (limit : Nat) (cwd : Str) (sep : Char)
    (path funcName : Str) : Option Str :=
  (formatPath limit cwd sep path).map fun p =>
    if funcName ≠ str "<module>" ∧ p ≠ str "shell" then
      p ++ str "." ++ funcName ++ str "()"
    else p

/-- The exception information carried by a record: the pieces of
`sys.exc_info()` that `Formatter.formatException` reads (`ei[0].__name__`,
`str(ei[1])`, `ei[2].tb_frame.f_code.co_name`, `ei[2].tb_lineno`). -/
structure ExcInfo where
  excName : Str
  excMsg : Str
  tbFunc : Str
  tbLine : Nat
deriving DecidableEq

/-- `Formatter.formatException` (lines 117-121): `"on"` when the traceback
frame is module-level code, `"in <func>() on"` otherwise, substituted into
`LOGGING_EXC_FMT`. -/
def formatException (ei : ExcInfo) : Str :=
  let exc_obj :=
    if ei.tbFunc = str "<module>" then str "on"
    else str "in " ++ ei.tbFunc ++ str "() on"
  pyFormat LOGGING_EXC_FMT [ei.excName, ei.excMsg, exc_obj, natStr ei.tbLine]

/-- The fields of a `logging.LogRecord` that `Formatter.format` reads or
writes.  Remaining record attributes (level, timestamp, thread, line number)
are untouched by the mutation and are carried by the rendering functions
separately. -/
structure LogRecord where
  pathname : Str
  funcName : Str
  msg : Str
  exc_info : Option ExcInfo
  exc_text : Option Str
deriving DecidableEq

/-- `Formatter.format` (lines 149-168), record-mutating part: overwrite
`record.pathname` with the formatted location, and when exception info is
present replace `record.msg` with the re-formatted exception text and clear
`record.exc_info` / `record.exc_text`.  Returns the mutated record; `none`
models the `IndexError` escaping from `formatPath`. -/
def formatMut (limit : Nat) (cwd : Str) (sep : Char) (r : LogRecord) :
    Option LogRecord :=
  (formatPath limit cwd sep r.pathname).map fun p =>
    let p2 :=
      if r.funcName ≠ str "<module>" ∧ p ≠ str "shell" then
        p ++ str "." ++ r.funcName ++ str "()"
      else p
    let r1 : LogRecord := { r with pathname := p2 }
    match r1.exc_info with
    | some ei =>
        { r1 with msg := formatException ei, exc_info := none, exc_text := none }
    | none => r1

/-!
## Colors and colorization

The color table itself (`miroslava/config/colors.py` resp.
`_miroslava/palette.py`) is not part of `src/`.  Modelled from the spec: the
spec treats the color table as an opaque lookup from symbolic color name to
terminal escape sequence, so a palette is a record of opaque escape strings,
one per color name used by the two level→color mappings.
-/

structure Palette where
  DARK_VIOLET : Str
  RED_1 : Str
  ORANGE_RED_1 : Str
  YELLOW_3 : Str
  GREEN_3 : Str
  GREY_50 : Str
  AQUA : Str
  DEFAULT : Str
  DARK_ORANGE : Str
  YELLOW : Str
  GREEN_1 : Str
deriving DecidableEq

/-- The ASCII escape character introducing a terminal escape sequence. -/
def escChar : Char := '\x1b'

/-- `_miroslava/utils/logging.py` lines 36-44: the module replaces
`logging._levelToName` with exactly these seven levels; these are the defined
severity levels of that subsystem.  A dict is a function into `Option`. -/
def levelToName : Nat → Option Str := fun n =>
  match n with
  | 60 => some (str "TRACE")
  | 50 => some (str "FATAL")
  | 40 => some (str "ERROR")
  | 30 => some (str "WARN")
  | 20 => some (str "INFO")
  | 10 => some (str "DEBUG")
  | 0 => some (str "NOTSET")
  | _ => none

/-- The standard library's `logging._levelToName` (modelled from CPython,
an external collaborator): the severity levels defined for the
`miroslava/utils/logger.py` subsystem, which does not redefine them. -/
def stdLevelToName : Nat → Option Str := fun n =>
  match n with
  | 50 => some (str "CRITICAL")
  | 40 => some (str "ERROR")
  | 30 => some (str "WARNING")
  | 20 => some (str "INFO")
  | 10 => some (str "DEBUG")
  | 0 => some (str "NOTSET")
  | _ => none

/-- `Formatter.level_style` (`_miroslava/utils/logging.py` lines 89-97):
level number → color; indexing a missing key raises `KeyError` (`none`). -/
def level_style (p : Palette) : Nat → Option Str := fun n =>
  match n with
  | 60 => some p.DARK_VIOLET
  | 50 => some p.RED_1
  | 40 => some p.ORANGE_RED_1
  | 30 => some p.YELLOW_3
  | 20 => some p.GREEN_3
  | 10 => some p.GREY_50
  | 0 => some p.AQUA
  | _ => none

/-- `_tty_levels` (`miroslava/utils/logger.py` lines 26-33). -/
def tty_levels (p : Palette) : Nat → Option Str := fun n =>
  match n with
  | 50 => some p.RED_1
  | 40 => some p.DARK_ORANGE
  | 30 => some p.YELLOW
  | 20 => some p.GREEN_1
  | 10 => some p.GREY_50
  | 0 => some p.AQUA
  | _ => none

/-- `Formatter.colorize` (`_miroslava/utils/logging.py` lines 116-131): on a
TTY, `record.color` is `level_style[record.levelno]` (a `KeyError` — `none` —
propagates) and `record.reset` is `reset_style = TTYPalette.DEFAULT` (line
98); otherwise both are the empty string. -/
def colorize (p : Palette) (isatty : Bool) (levelno : Nat) :
    Option (Str × Str) :=
  if isatty then (level_style p levelno).map (fun c => (c, p.DEFAULT))
  else some ([], [])

/-- Substitution of the record's attributes into `BASIC_FORMAT`
(`_miroslava/utils/logging.py` lines 46-49):
`"%(asctime)s %(color)s%(levelname)s%(reset)s [%(threadName)s] "
"%(caller)s:%(lineno)d : %(message)s"`. -/
def renderBasic (asctime color levelname reset threadName caller msg : Str)
    (lineno : Nat) : Str :=
  asctime ++ str " " ++ color ++ levelname ++ reset ++ str " [" ++
    threadName ++ str "] " ++ caller ++ str ":" ++ natStr lineno ++
    str " : " ++ msg

/-- `Formatter.format` of `_miroslava/utils/logging.py` (lines 194-218),
rendering part, with `isatty` the flag that `StreamHandlerHinter.format`
(lines 446-463) read off the stream: `colorize` fills `record.color` /
`record.reset`, then the attributes are substituted into the default
template.  `none` models the `KeyError` from an unmapped level. -/
def render (p : Palette) (isatty : Bool)
    (asctime levelname threadName caller msg : Str) (levelno lineno : Nat) :
    Option Str :=
  (colorize p isatty levelno).map fun cr =>
    renderBasic asctime cr.1 levelname cr.2 threadName caller msg lineno

mutual

/-- Strip every terminal escape sequence: on `ESC`, discard up to and
including the terminating `'m'` (the terminator of the only escape-sequence
form the palette uses, `ESC [ … m`); every other character is kept. -/
def stripEsc : Str → Str
  | [] => []
  | c :: rest => if c = escChar then stripSkip rest else c :: stripEsc rest

/-- Inside an escape sequence: discard up to and including the first `'m'`,
then resume stripping. -/
def stripSkip : Str → Str
  | [] => []
  | c :: rest => if c = 'm' then stripEsc rest else stripSkip rest

end

/-!
## `miroslava/utils/common.py`: the `Singleton` metaclass

Sequential functional view of `Singleton.__call__` (lines 56-61) for a fixed
class key: `reg` is `cls.instances.get(cls)`; the constructor returning
`none` models `super().__call__(*args, **kwargs)` raising.  The result pair
is (registry afterwards, value returned to the caller — `none` when the
exception propagates, in which case the assignment on line 60 never ran).
-/

def singletonCall {Inst Args : Type} (reg : Option Inst)
    (ctor : Args → Option Inst) (args : Args) : Option Inst × Option Inst :=
  match reg with
  | some v => (some v, some v)
  | none =>
    match ctor args with
    | none => (none, none)
    | some v => (some v, some v)

/-!
### Concurrent view (`Singleton.__call__` under the thread lock)

A transition system over the interleavings of `n` threads all constructing
the same class.  Each thread runs the body of `__call__`:
acquire `cls.lock` → check `cls not in cls.instances` → (run the
constructor and store) → release the lock (end of `with`) → read and return
`cls.instances[cls]` (line 61, outside the lock).  The stored instance is
identified by the creating thread's index; `ctorCount` counts constructor
invocations.
-/

inductive PC where
  | acquire
  | check
  | create
  | release
  | readRet
  | done (v : Nat)
deriving DecidableEq

structure SysState (n : Nat) where
  lock : Option (Fin n)
  reg : Option Nat
  ctorCount : Nat
  pcs : Fin n → PC

/-- One interleaving step of some thread `t`.  Each constructor carries the
guard of the statement and pointwise frame conditions for the next state. -/
inductive SStep (n : Nat) : SysState n → SysState n → Prop where
  | acquireStep (s s' : SysState n) (t : Fin n) :
      s.pcs t = .acquire → s.lock = none →
      s'.lock = some t → s'.reg = s.reg → s'.ctorCount = s.ctorCount →
      s'.pcs t = .check → (∀ u, u ≠ t → s'.pcs u = s.pcs u) →
      SStep n s s'
  | checkMissStep (s s' : SysState n) (t : Fin n) :
      s.pcs t = .check → s.lock = some t → s.reg = none →
      s'.lock = s.lock → s'.reg = s.reg → s'.ctorCount = s.ctorCount →
      s'.pcs t = .create → (∀ u, u ≠ t → s'.pcs u = s.pcs u) →
      SStep n s s'
  | checkHitStep (s s' : SysState n) (t : Fin n) (v : Nat) :
      s.pcs t = .check → s.lock = some t → s.reg = some v →
      s'.lock = s.lock → s'.reg = s.reg → s'.ctorCount = s.ctorCount →
      s'.pcs t = .release → (∀ u, u ≠ t → s'.pcs u = s.pcs u) →
      SStep n s s'
  | createStep (s s' : SysState n) (t : Fin n) :
      s.pcs t = .create → s.lock = some t →
      s'.lock = s.lock → s'.reg = some t.val →
      s'.ctorCount = s.ctorCount + 1 →
      s'.pcs t = .release → (∀ u, u ≠ t → s'.pcs u = s.pcs u) →
      SStep n s s'
  | releaseStep (s s' : SysState n) (t : Fin n) :
      s.pcs t = .release → s.lock = some t →
      s'.lock = none → s'.reg = s.reg → s'.ctorCount = s.ctorCount →
      s'.pcs t = .readRet → (∀ u, u ≠ t → s'.pcs u = s.pcs u) →
      SStep n s s'
  | readStep (s s' : SysState n) (t : Fin n) (v : Nat) :
      s.pcs t = .readRet → s.reg = some v →
      s'.lock = s.lock → s'.reg = s.reg → s'.ctorCount = s.ctorCount →
      s'.pcs t = .done v → (∀ u, u ≠ t → s'.pcs u = s.pcs u) →
      SStep n s s'

/-- Initial state: registry empty, no constructor has run, lock free, every
thread about to call the class. -/
def initState (n : Nat) : SysState n :=
  ⟨none, none, 0, fun _ => .acquire⟩

/-- Reachability under interleaving. -/
abbrev Reach (n : Nat) : SysState n → SysState n → Prop :=
  Relation.ReflTransGen (SStep n)

/-- The inductive invariant of the singleton protocol. -/
def SInv {n : Nat} (s : SysState n) : Prop :=
  s.ctorCount ≤ 1 ∧
  (s.reg = none ↔ s.ctorCount = 0) ∧
  (∀ t, (s.pcs t = .check ∨ s.pcs t = .create ∨ s.pcs t = .release) →
    s.lock = some t) ∧
  (∀ t, s.pcs t = .create → s.reg = none) ∧
  (∀ t v, s.pcs t = .done v → s.reg = some v)

/-!
## `_miroslava/utils/logging.py`: `create_logger` (lines 589-632)

Handlers are identified by `Nat` tokens; a fresh token stands for a handler
object newly constructed during one call (its open stream / file
descriptor).  `RootLogger` is the process-wide channel state:
the attached-handler list of `logging.getLogger(None)` plus the set of
handler ids whose `close()` has run.
-/

structure RootLogger where
  handlers : List Nat
  closed : List Nat
deriving DecidableEq

/-- Lines 605-607: `for handler in root.handlers[:]: root.removeHandler(h);
handler.close()` — iterate over a copy, erase each from the live list
(stdlib `removeHandler` removes the handler if present) and record it
closed. -/
def removeCloseLoop : List Nat → RootLogger → RootLogger
  | [], root => root
  | h :: rest, root =>
      removeCloseLoop rest ⟨root.handlers.erase h, root.closed ++ [h]⟩

/-- Lines 627-628: attach each new handler; stdlib `addHandler` appends only
if not already present. -/
def attachAll : List Nat → List Nat → List Nat
  | [], hs => hs
  | h :: rest, hs => attachAll rest (if h ∈ hs then hs else hs ++ [h])

/-- `create_logger` (lines 604-628), channel-state part: detach and close
every currently attached handler, then — the list now being empty — attach
the handlers constructed by this call (`newHandlers`: the fresh
`StreamHandler` and, when a filename is configured, the fresh
`RotatingFileHandler` of lines 614-626, or the explicit `handlers`
argument). -/
def create_logger (newHandlers : List Nat) (root : RootLogger) : RootLogger :=
  let root1 := removeCloseLoop root.handlers root
  if root1.handlers.length = 0 then
    ⟨attachAll newHandlers root1.handlers, root1.closed⟩
  else root1

/-!
## Concrete material for witnesses and counterexamples
-/

def cexCwd : Str := str "/home/user/project"

def cexPath : Str := str "/workspace/app/module/component/implementation.py"

def cexNormalized : Str := str "workspace.app.module.component.implementation"

def cexRecord : LogRecord :=
  { pathname := cexPath, funcName := str "f", msg := str "boom",
    exc_info := none, exc_text := none }

def cexRecord1 : LogRecord :=
  { pathname := str "...le.component.implementation.f()", funcName := str "f",
    msg := str "boom", exc_info := none, exc_text := none }

/-- A concrete interleaved run of two threads through `Singleton.__call__`:
thread 0 acquires, misses the check, constructs and stores, releases and
reads; thread 1 then acquires, hits the check, releases and reads.  The
states `execS1` … `execS9` are the successive configurations. -/
def execS1 : SysState 2 :=
  ⟨some 0, none, 0, fun u => if u = 0 then .check else .acquire⟩

def execS2 : SysState 2 :=
  ⟨some 0, none, 0, fun u => if u = 0 then .create else .acquire⟩

def execS3 : SysState 2 :=
  ⟨some 0, some 0, 1, fun u => if u = 0 then .release else .acquire⟩

def execS4 : SysState 2 :=
  ⟨none, some 0, 1, fun u => if u = 0 then .readRet else .acquire⟩

def execS5 : SysState 2 :=
  ⟨none, some 0, 1, fun u => if u = 0 then .done 0 else .acquire⟩

def execS6 : SysState 2 :=
  ⟨some 1, some 0, 1, fun u => if u = 0 then .done 0 else .check⟩

def execS7 : SysState 2 :=
  ⟨some 1, some 0, 1, fun u => if u = 0 then .done 0 else .release⟩

def execS8 : SysState 2 :=
  ⟨none, some 0, 1, fun u => if u = 0 then .done 0 else .readRet⟩

def execS9 : SysState 2 :=
  ⟨none, some 0, 1, fun _ => .done 0⟩

def testPalette : Palette :=
  { DARK_VIOLET := str "\x1b[38;5;128m"
    RED_1 := str "\x1b[38;5;196m"
    ORANGE_RED_1 := str "\x1b[38;5;202m"
    YELLOW_3 := str "\x1b[38;5;184m"
    GREEN_3 := str "\x1b[38;5;40m"
    GREY_50 := str "\x1b[38;5;244m"
    AQUA := str "\x1b[38;5;14m"
    DEFAULT := str "\x1b[0m"
    DARK_ORANGE := str "\x1b[38;5;208m"
    YELLOW := str "\x1b[38;5;11m"
    GREEN_1 := str "\x1b[38;5;46m" }

end Miroslava

namespace Miroslava

/-!
# Theorems
-/

/-- C8: for the interactive-shell sentinel `"<stdin>"` the location field of
the rendered line is exactly `"shell"`: no function-name segment is appended
(the guard in `format` line 163 excludes the `"shell"` value) and no
truncation is applied (`formatPath` returns before reaching it), for every
function name, limit, working directory and separator. -/
theorem shell_sentinel_location (limit : Nat) (cwd : Str) (sep : Char)
    (funcName : Str) :
    formatLocation limit cwd sep (str "<stdin>") funcName =
      some (str "shell") := by
  simp [formatLocation, formatPath, str]

/-!
## C1: truncation of the location field
-/

/-- C1 counterexample: with the default limit 27 (from `%(pathname)30s`),
the path `cexPath` normalizes to 45 > 27 characters, yet the location field
of the rendered line for a record whose function is `f` has 34 > 27 + 3
characters — the `.f()` segment is appended *after* truncation (`format`
line 164 runs after `formatPath`), so the claimed bound fails for the final
location field. -/
theorem location_bound_counterexample :
    27 < ((normalizePath cexCwd '/' cexPath).map List.length).getD 0 ∧
    27 + 3 <
      ((formatLocation 27 cexCwd '/' cexPath (str "f")).map List.length).getD 0
      := by decide

/-- C1 (amended): for every path whose normalized form is longer than the
configured limit, the *truncated path portion* of the location field has
length exactly `limit + 3`, starts with the `"..."` marker, and after the
marker is a suffix of the normalized path; the full location field equals
that portion when the record's function is module-level, and that portion
with `.<funcName>()` appended (hence exceeding the bound) otherwise. -/
theorem truncated_location_bound (limit : Nat) (cwd : Str) (sep : Char)
    (path fn n : Str) (hlim : 0 < limit) (hpath : path ≠ str "<stdin>")
    (hnorm : normalizePath cwd sep path = some n) (hlong : limit < n.length) :
    ∃ t, formatPath limit cwd sep path = some t ∧
      t.length = limit + 3 ∧
      t.take 3 = str "..." ∧
      t.drop 3 <:+ n ∧
      formatLocation limit cwd sep path (str "<module>") = some t ∧
      (fn ≠ str "<module>" →
        formatLocation limit cwd sep path fn =
          some (t ++ str "." ++ fn ++ str "()")) := by
  have h3 : (str "...").length = 3 := rfl
  have ht : truncatePath limit n = str "..." ++ n.drop (n.length - limit) := by
    have : ¬limit = 0 := by omega
    simp [truncatePath, hlong, this]
  have hfp : formatPath limit cwd sep path = some (truncatePath limit n) := by
    simp [formatPath, hpath, hnorm]
  refine ⟨truncatePath limit n, hfp, ?_, ?_, ?_, ?_, ?_⟩
  · rw [ht]
    simp only [List.length_append, List.length_drop, h3]
    omega
  · rw [ht, List.take_left' h3]
  · rw [ht, List.drop_left' h3]
    exact List.drop_suffix _ _
  · have : ¬(str "<module>" ≠ str "<module>" ∧
        truncatePath limit n ≠ str "shell") := by simp
    simp [formatLocation, hfp, this]
  · intro hfn
    have hts : truncatePath limit n ≠ str "shell" := by
      intro he
      have := congrArg (List.take 3) he
      rw [ht, List.take_left' h3] at this
      exact absurd this (by decide)
    simp [formatLocation, hfp, hfn, hts]

/-- C1 witness: the amended statement instantiated at the default limit 27
and the concrete 45-character normalized path. -/
theorem truncated_location_bound_witness :
    ∃ t, formatPath 27 cexCwd '/' cexPath = some t ∧
      t.length = 27 + 3 ∧
      t.take 3 = str "..." ∧
      t.drop 3 <:+ cexNormalized ∧
      formatLocation 27 cexCwd '/' cexPath (str "<module>") = some t ∧
      (str "f" ≠ str "<module>" →
        formatLocation 27 cexCwd '/' cexPath (str "f") =
          some (t ++ str "." ++ str "f" ++ str "()")) :=
  truncated_location_bound 27 cexCwd '/' cexPath (str "f") cexNormalized
    (by decide) (by decide) (by decide) (by decide)

/-!
## C5: exception rendering
-/

/-- Substituting four arguments into `LOGGING_EXC_FMT`. -/
theorem pyFormat_exc_fmt (a b c d : Str) :
    pyFormat LOGGING_EXC_FMT [a, b, c, d] =
      a ++ str ": " ++ b ++ str " " ++ c ++ str " line " ++ d := by
  have h1 : splitFirst LOGGING_EXC_FMT (str "{}")
      = some ([], str ": {} {} line {}") := by decide
  have h2 : splitFirst (str ": {} {} line {}") (str "{}")
      = some (str ": ", str " {} line {}") := by decide
  have h3 : splitFirst (str " {} line {}") (str "{}")
      = some (str " ", str " line {}") := by decide
  have h4 : splitFirst (str " line {}") (str "{}")
      = some (str " line ", []) := by decide
  simp [pyFormat, h1, h2, h3, h4]

/-- C5: the rendered exception text is
`"<ExceptionTypeName>: <message> in <funcName>() on line <lineNumber>"` when
the traceback frame belongs to a named function, and
`"<ExceptionTypeName>: <message> on line <lineNumber>"` when the exception
originated at module top level. -/
theorem exception_text_format (ei : ExcInfo) :
    (ei.tbFunc ≠ str "<module>" →
      formatException ei =
        ei.excName ++ str ": " ++ ei.excMsg ++ str " in " ++ ei.tbFunc ++
          str "() on line " ++ natStr ei.tbLine) ∧
    (ei.tbFunc = str "<module>" →
      formatException ei =
        ei.excName ++ str ": " ++ ei.excMsg ++ str " on line " ++
          natStr ei.tbLine) := by
  have e1 : ∀ x : Str, str " " ++ (str "in " ++ x) = str " in " ++ x := by
    intro x
    rw [← List.append_assoc]
    rfl
  have e2 : ∀ x : Str, str "() on" ++ (str " line " ++ x)
      = str "() on line " ++ x := by
    intro x
    rw [← List.append_assoc]
    rfl
  have e3 : ∀ x : Str, str " " ++ (str "on" ++ (str " line " ++ x))
      = str " on line " ++ x := by
    intro x
    rw [← List.append_assoc, ← List.append_assoc]
    rfl
  constructor
  · intro h
    simp only [formatException, if_neg h, pyFormat_exc_fmt]
    simp [e1, e2]
  · intro h
    simp only [formatException, if_pos h, pyFormat_exc_fmt]
    simp [e3]

/-- C5 witness: both branches evaluated at concrete exception info. -/
theorem exception_text_format_witness :
    formatException ⟨str "ValueError", str "bad input", str "parse", 42⟩ =
      str "ValueError" ++ str ": " ++ str "bad input" ++ str " in " ++
        str "parse" ++ str "() on line " ++ natStr 42 ∧
    formatException
        ⟨str "ZeroDivisionError", str "division by zero", str "<module>", 7⟩ =
      str "ZeroDivisionError" ++ str ": " ++ str "division by zero" ++
        str " on line " ++ natStr 7 :=
  ⟨(exception_text_format _).1 (by decide), (exception_text_format _).2 rfl⟩

/-!
## C7 and C10: the singleton registry's caching discipline
-/

/-- C7: if the constructor run by `Singleton.__call__` raises, the exception
propagates to the caller (result `none`) and nothing is cached (the registry
stays empty), so a subsequent call runs its constructor again and, when that
one succeeds, caches and returns the new instance. -/
theorem ctor_failure_not_cached {Inst Args : Type}
    (ctor ctor2 : Args → Option Inst) (a a2 : Args) (v : Inst)
    (hfail : ctor a = none) (hretry : ctor2 a2 = some v) :
    singletonCall none ctor a = (none, none) ∧
    singletonCall (singletonCall none ctor a).1 ctor2 a2 =
      (some v, some v) := by
  constructor
  · simp [singletonCall, hfail]
  · simp [singletonCall, hfail, hretry]

/-- C7 witness: a failing constructor followed by a successful retry. -/
theorem ctor_failure_not_cached_witness :
    singletonCall none (fun _ : Unit => (none : Option Nat)) () =
      (none, none) ∧
    singletonCall
        (singletonCall none (fun _ : Unit => (none : Option Nat)) ()).1
        (fun _ : Unit => some 7) () = (some 7, some 7) :=
  ctor_failure_not_cached (fun _ => none) (fun _ => some 7) () () 7 rfl rfl

/-- C10: once an instance is cached by the first construction call, every
later call returns exactly the stored instance and leaves the registry
unchanged, whatever its arguments — even a different constructor — are. -/
theorem later_args_ignored {Inst Args : Type}
    (ctor : Args → Option Inst) (a1 : Args) (v : Inst)
    (h1 : ctor a1 = some v) :
    singletonCall none ctor a1 = (some v, some v) ∧
    ∀ (ctor2 : Args → Option Inst) (b : Args),
      singletonCall (some v) ctor2 b = (some v, some v) := by
  constructor
  · simp [singletonCall, h1]
  · intro ctor2 b
    simp [singletonCall]

/-- C10 witness: the second call's different argument is ignored. -/
theorem later_args_ignored_witness :
    singletonCall none (fun k : Nat => some (k + 1)) 10 = (some 11, some 11) ∧
    ∀ (ctor2 : Nat → Option Nat) (b : Nat),
      singletonCall (some 11) ctor2 b = (some 11, some 11) :=
  later_args_ignored (fun k => some (k + 1)) 10 11 rfl

/-!
## C2: colorization versus the plain rendering
-/

theorem stripEsc_nil : stripEsc [] = [] := by
  simp [stripEsc]

/-- Skipping an escape body that contains no terminator character stops
exactly at the first `'m'`. -/
theorem stripSkip_spec (body rest : Str) (h : 'm' ∉ body) :
    stripSkip (body ++ 'm' :: rest) = stripEsc rest := by
  induction body with
  | nil => simp [stripSkip]
  | cons c cs ih =>
    have hc : ¬c = 'm' := by
      intro he
      exact h (by simp [he])
    have hcs : 'm' ∉ cs := fun hm => h (List.mem_cons_of_mem _ hm)
    simp [stripSkip, hc, ih hcs]

/-- Stripping walks over an escape-free prefix unchanged. -/
theorem stripEsc_append_left (a b : Str) (h : escChar ∉ a) :
    stripEsc (a ++ b) = a ++ stripEsc b := by
  induction a with
  | nil => simp
  | cons c cs ih =>
    have hc : ¬c = escChar := by
      intro he
      exact h (by simp [he])
    have hcs : escChar ∉ cs := fun hm => h (List.mem_cons_of_mem _ hm)
    simp [stripEsc, hc, ih hcs]

/-- An escape-free string is a fixed point of stripping. -/
theorem stripEsc_eq_self (a : Str) (h : escChar ∉ a) : stripEsc a = a := by
  have := stripEsc_append_left a [] h
  simpa [stripEsc_nil] using this

/-- Stripping deletes a well-formed escape sequence
`ESC <body> m` entirely. -/
theorem stripEsc_escape (body rest : Str) (hm : 'm' ∉ body) :
    stripEsc (escChar :: (body ++ 'm' :: rest)) = stripEsc rest := by
  simp [stripEsc, stripSkip_spec body rest hm]

/-- C2 counterexample: the claim quantifies over *every* message body, but
for a message that itself contains the escape character the `isTTY = false`
rendering does contain an escape character, falsifying "rendering with
isTTY=false yields a string containing no terminal escape sequences". -/
theorem tty_render_counterexample :
    escChar ∈ (render testPalette false (str "Oct 12, 2021 10:00:00")
      (str "INFO") (str "MainThread") (str "app.main")
      (escChar :: str "[31mowned") 20 7).getD [] := by decide

/-- C2 (amended): for every log event whose textual fields are free of the
escape character, the `isTTY = false` rendering contains no escape
character, and the `isTTY = true` rendering — the level's color sequence
and the reset sequence inserted at the template's field boundaries — is,
after stripping all escape sequences, byte-identical to the `isTTY = false`
rendering, including when the message contains the level name as a
substring. -/
theorem tty_render_strip_identity (p : Palette)
    (asctime levelname threadName caller msg : Str) (levelno lineno : Nat)
    (color cbody rbody : Str)
    (hc : level_style p levelno = some color)
    (hcw : color = escChar :: (cbody ++ ['m'])) (hcm : 'm' ∉ cbody)
    (hrw : p.DEFAULT = escChar :: (rbody ++ ['m'])) (hrm : 'm' ∉ rbody)
    (ha : escChar ∉ asctime) (hl : escChar ∉ levelname)
    (hth : escChar ∉ threadName) (hca : escChar ∉ caller)
    (hmsg : escChar ∉ msg) (hln : escChar ∉ natStr lineno) :
    ∃ plain colored,
      render p false asctime levelname threadName caller msg levelno lineno
        = some plain ∧
      render p true asctime levelname threadName caller msg levelno lineno
        = some colored ∧
      escChar ∉ plain ∧
      stripEsc colored = plain := by
  have l1 : escChar ∉ str " " := by decide
  have l2 : escChar ∉ str " [" := by decide
  have l3 : escChar ∉ str "] " := by decide
  have l4 : escChar ∉ str ":" := by decide
  have l5 : escChar ∉ str " : " := by decide
  refine ⟨renderBasic asctime [] levelname [] threadName caller msg lineno,
    renderBasic asctime color levelname p.DEFAULT threadName caller msg lineno,
    ?_, ?_, ?_, ?_⟩
  · simp [render, colorize]
  · simp [render, colorize, hc]
  · simp only [renderBasic, List.mem_append, List.append_assoc,
      List.nil_append]
    intro hmem
    rcases hmem with h | h | h | h | h | h | h | h | h | h | h <;>
      first
        | exact ha h | exact l1 h | exact hl h | exact l2 h | exact hth h
        | exact l3 h | exact hca h | exact l4 h | exact hln h | exact l5 h
        | exact hmsg h
  · have hX : escChar ∉ str " [" ++ (threadName ++ (str "] " ++ (caller ++
        (str ":" ++ (natStr lineno ++ (str " : " ++ msg)))))) := by
      simp only [List.mem_append]
      intro hmem
      rcases hmem with h | h | h | h | h | h | h | h <;>
        first
          | exact l2 h | exact hth h | exact l3 h | exact hca h
          | exact l4 h | exact hln h | exact l5 h | exact hmsg h
    simp only [renderBasic, List.append_assoc, List.nil_append]
    rw [stripEsc_append_left _ _ ha, stripEsc_append_left _ _ l1,
      hcw, List.cons_append, List.append_assoc, List.singleton_append,
      stripEsc_escape _ _ hcm, stripEsc_append_left _ _ hl,
      hrw, List.cons_append, List.append_assoc, List.singleton_append,
      stripEsc_escape _ _ hrm, stripEsc_eq_self _ hX]

/-- C2 witness: the amended statement at a concrete INFO event whose message
contains the level name `INFO` as a substring. -/
theorem tty_render_strip_identity_witness :
    ∃ plain colored,
      render testPalette false (str "Oct 12, 2021 10:00:00") (str "INFO")
        (str "MainThread") (str "app.main") (str "INFO level reached") 20 7
        = some plain ∧
      render testPalette true (str "Oct 12, 2021 10:00:00") (str "INFO")
        (str "MainThread") (str "app.main") (str "INFO level reached") 20 7
        = some colored ∧
      escChar ∉ plain ∧
      stripEsc colored = plain :=
  tty_render_strip_identity testPalette (str "Oct 12, 2021 10:00:00")
    (str "INFO") (str "MainThread") (str "app.main")
    (str "INFO level reached") 20 7 (str "\x1b[38;5;40m") (str "[38;5;40")
    (str "[0") (by decide) (by decide) (by decide) (by decide) (by decide)
    (by decide) (by decide) (by decide) (by decide) (by decide) (by decide)

/-!
## C6: totality of the level→color mapping; unknown levels fail loudly
-/

/-- C6: both level→color mappings cover every severity level their subsystem
defines (`logging._levelToName` as replaced by `_miroslava`, resp. the
standard levels for `miroslava`), and colorizing on a TTY with a level
number outside the mapping propagates the lookup failure (`KeyError`)
instead of falling back to a default color. -/
theorem level_colors_total_fail_fast (p : Palette) :
    (∀ n s, levelToName n = some s → (level_style p n).isSome) ∧
    (∀ n s, stdLevelToName n = some s → (tty_levels p n).isSome) ∧
    (∀ n, level_style p n = none → colorize p true n = none) := by
  refine ⟨?_, ?_, ?_⟩
  · intro n s h
    unfold levelToName at h
    split at h <;> simp_all [level_style]
  · intro n s h
    unfold stdLevelToName at h
    split at h <;> simp_all [tty_levels]
  · intro n h
    simp [colorize, h]

/-- C6 witness: the custom TRACE level is mapped, the standard CRITICAL
level is mapped, and colorizing unmapped level 25 fails. -/
theorem level_colors_total_fail_fast_witness :
    (level_style testPalette 60).isSome ∧
    (tty_levels testPalette 50).isSome ∧
    colorize testPalette true 25 = none :=
  ⟨(level_colors_total_fail_fast testPalette).1 60 (str "TRACE") rfl,
   (level_colors_total_fail_fast testPalette).2.1 50 (str "CRITICAL") rfl,
   (level_colors_total_fail_fast testPalette).2.2 25 rfl⟩

/-!
## C9: `format` mutates the record and is not idempotent
-/

/-- C9: `Formatter.format` overwrites the record's `pathname` with the
normalized-and-possibly-truncated location (with `.<funcName>()` appended
when the function is not module-level — that is exactly `formatLocation`),
and when exception info is present replaces `msg` with the re-formatted
exception text and clears `exc_info`/`exc_text`; consequently it is not
idempotent: applying it twice to the concrete record `cexRecord` yields a
different location field than applying it once. -/
theorem format_mutates_record :
    (∀ (limit : Nat) (cwd : Str) (sep : Char) (r r' : LogRecord),
      formatMut limit cwd sep r = some r' →
        formatLocation limit cwd sep r.pathname r.funcName
          = some r'.pathname ∧
        r'.funcName = r.funcName ∧
        (∀ ei, r.exc_info = some ei →
          r'.msg = formatException ei ∧ r'.exc_info = none ∧
            r'.exc_text = none) ∧
        (r.exc_info = none → r'.msg = r.msg ∧ r'.exc_info = none)) ∧
    (Option.map LogRecord.pathname
        ((formatMut 27 cexCwd '/' cexRecord).bind (formatMut 27 cexCwd '/'))
      ≠ Option.map LogRecord.pathname (formatMut 27 cexCwd '/' cexRecord))
    := by
  constructor
  · intro limit cwd sep r r' h
    unfold formatMut at h
    cases hfp : formatPath limit cwd sep r.pathname with
    | none => rw [hfp] at h; simp at h
    | some p =>
      rw [hfp] at h
      simp only [Option.map_some', Option.some.injEq] at h
      cases hei : r.exc_info with
      | some ei =>
        rw [hei] at h
        subst h
        simp [formatLocation, hfp, hei]
      | none =>
        rw [hei] at h
        subst h
        simp [formatLocation, hfp, hei]
  · decide

/-- C9 witness: the mutation facts evaluated at the concrete record
`cexRecord`, whose image under `format` is `cexRecord1`. -/
theorem format_mutates_record_witness :
    formatMut 27 cexCwd '/' cexRecord = some cexRecord1 ∧
    (formatLocation 27 cexCwd '/' cexRecord.pathname cexRecord.funcName
        = some cexRecord1.pathname ∧
      cexRecord1.funcName = cexRecord.funcName ∧
      (∀ ei, cexRecord.exc_info = some ei →
        cexRecord1.msg = formatException ei ∧ cexRecord1.exc_info = none ∧
          cexRecord1.exc_text = none) ∧
      (cexRecord.exc_info = none →
        cexRecord1.msg = cexRecord.msg ∧ cexRecord1.exc_info = none)) :=
  ⟨by decide,
   format_mutates_record.1 27 cexCwd '/' cexRecord cexRecord1 (by decide)⟩

/-!
## C4: running `create_logger` twice
-/

/-- Iterating over a copy of the attached-handler list, erasing and closing
each element, empties the list and closes exactly the former handlers. -/
theorem removeCloseLoop_self (l : List Nat) (c : List Nat) :
    removeCloseLoop l ⟨l, c⟩ = ⟨[], c ++ l⟩ := by
  induction l generalizing c with
  | nil => simp [removeCloseLoop]
  | cons h rest ih =>
    simp [removeCloseLoop, List.erase_cons_head, ih]

/-- Attaching pairwise-distinct handlers none of which is already attached
appends them all. -/
theorem attachAll_disjoint (l : List Nat) :
    ∀ acc, l.Nodup → (∀ x ∈ l, x ∉ acc) → attachAll l acc = acc ++ l := by
  induction l with
  | nil => intro acc _ _; simp [attachAll]
  | cons h rest ih =>
    intro acc hn hd
    have hh : h ∉ acc := hd h (by simp)
    rw [attachAll, if_neg hh,
      ih (acc ++ [h]) (List.Nodup.of_cons hn) ?fresh]
    · simp
    case fresh =>
      intro x hx
      simp only [List.mem_append, List.mem_singleton]
      rintro (hacc | rfl)
      · exact hd x (List.mem_cons_of_mem _ hx) hacc
      · exact (List.nodup_cons.mp hn).1 hx

/-- One `create_logger` call: every previously attached handler is detached
and closed, then exactly the handlers built by this call are attached. -/
theorem create_logger_eq (f : List Nat) (r : RootLogger) :
    create_logger f r = ⟨attachAll f [], r.closed ++ r.handlers⟩ := by
  obtain ⟨hs, c⟩ := r
  unfold create_logger
  rw [removeCloseLoop_self]
  simp

/-- C4: running `create_logger` twice leaves the default channel with
exactly the handlers attached by the second call: the first call's handlers
are all detached and closed (their ids are in `closed` and no longer
attached), and no duplicates accumulate.  `f1`/`f2` are the (fresh, hence
pairwise distinct and disjoint) handlers constructed by the two calls. -/
theorem bootstrap_twice_exact_handlers (r0 : RootLogger) (f1 f2 : List Nat)
    (h1 : f1.Nodup) (h2 : f2.Nodup) (hdisj : ∀ h ∈ f1, h ∉ f2) :
    (create_logger f1 r0).handlers = f1 ∧
    (create_logger f2 (create_logger f1 r0)).handlers = f2 ∧
    (∀ h ∈ (create_logger f1 r0).handlers,
      h ∈ (create_logger f2 (create_logger f1 r0)).closed ∧
      h ∉ (create_logger f2 (create_logger f1 r0)).handlers) := by
  have e1 : attachAll f1 [] = f1 := by
    simpa using attachAll_disjoint f1 [] h1 (by simp)
  have e2 : attachAll f2 [] = f2 := by
    simpa using attachAll_disjoint f2 [] h2 (by simp)
  rw [create_logger_eq f2 _, create_logger_eq f1 r0]
  refine ⟨by simpa using e1, by simpa using e2, ?_⟩
  intro h hh
  simp only [e1] at hh
  constructor
  · simp only [List.mem_append, e1]
    exact Or.inr hh
  · simp only [e2]
    exact hdisj h hh

/-- C4 witness: two bootstrap calls with distinct fresh handlers. -/
theorem bootstrap_twice_exact_handlers_witness :
    (create_logger [1, 2] ⟨[], []⟩).handlers = [1, 2] ∧
    (create_logger [3, 4] (create_logger [1, 2] ⟨[], []⟩)).handlers
      = [3, 4] ∧
    (∀ h ∈ (create_logger [1, 2] (⟨[], []⟩ : RootLogger)).handlers,
      h ∈ (create_logger [3, 4] (create_logger [1, 2] ⟨[], []⟩)).closed ∧
      h ∉ (create_logger [3, 4] (create_logger [1, 2] ⟨[], []⟩)).handlers) :=
  bootstrap_twice_exact_handlers ⟨[], []⟩ [1, 2] [3, 4] (by decide)
    (by decide) (by decide)

/-!
## C3: the singleton protocol under interleaving
-/

/-- The invariant holds initially. -/
theorem sinv_init (n : Nat) : SInv (initState n) := by
  refine ⟨by simp [initState], by simp [initState], ?_, ?_, ?_⟩
  · intro t h
    simp [initState] at h
  · intro t h
    simp [initState] at h
  · intro t v h
    simp [initState] at h

/-- The invariant is preserved by every interleaving step. -/
theorem sinv_step {n : Nat} {s s' : SysState n} (hs : SInv s)
    (st : SStep n s s') : SInv s' := by
  obtain ⟨h1, h2, h3, h4, h5⟩ := hs
  cases st with
  | acquireStep t hpc hlock hl' hr' hc' hp' hframe =>
    refine ⟨by rwa [hc'], by rw [hr', hc']; exact h2, ?_, ?_, ?_⟩
    · intro u hu
      by_cases hut : u = t
      · subst hut
        rw [hl']
      · rw [hframe u hut] at hu
        exact Option.noConfusion (hlock ▸ h3 u hu)
    · intro u hu
      by_cases hut : u = t
      · subst hut
        rw [hp'] at hu
        cases hu
      · rw [hframe u hut] at hu
        rw [hr']
        exact h4 u hu
    · intro u v hu
      by_cases hut : u = t
      · subst hut
        rw [hp'] at hu
        cases hu
      · rw [hframe u hut] at hu
        rw [hr']
        exact h5 u v hu
  | checkMissStep t hpc hlock hregn hl' hr' hc' hp' hframe =>
    refine ⟨by rwa [hc'], by rw [hr', hc']; exact h2, ?_, ?_, ?_⟩
    · intro u hu
      by_cases hut : u = t
      · subst hut
        rw [hl', hlock]
      · rw [hframe u hut] at hu
        rw [hl']
        exact h3 u hu
    · intro u _
      rw [hr']
      exact hregn
    · intro u v hu
      by_cases hut : u = t
      · subst hut
        rw [hp'] at hu
        cases hu
      · rw [hframe u hut] at hu
        rw [hr']
        exact h5 u v hu
  | checkHitStep t v0 hpc hlock hreg hl' hr' hc' hp' hframe =>
    refine ⟨by rwa [hc'], by rw [hr', hc']; exact h2, ?_, ?_, ?_⟩
    · intro u hu
      by_cases hut : u = t
      · subst hut
        rw [hl', hlock]
      · rw [hframe u hut] at hu
        rw [hl']
        exact h3 u hu
    · intro u hu
      by_cases hut : u = t
      · subst hut
        rw [hp'] at hu
        cases hu
      · rw [hframe u hut] at hu
        rw [hr']
        exact h4 u hu
    · intro u v hu
      by_cases hut : u = t
      · subst hut
        rw [hp'] at hu
        cases hu
      · rw [hframe u hut] at hu
        rw [hr']
        exact h5 u v hu
  | createStep t hpc hlock hl' hr' hc' hp' hframe =>
    have hregn : s.reg = none := h4 t hpc
    have hcnt0 : s.ctorCount = 0 := h2.mp hregn
    refine ⟨by rw [hc', hcnt0], by rw [hr', hc']; simp, ?_, ?_, ?_⟩
    · intro u hu
      by_cases hut : u = t
      · subst hut
        rw [hl', hlock]
      · rw [hframe u hut] at hu
        have hcontra := h3 u hu
        rw [hlock] at hcontra
        injection hcontra with heq
        exact absurd heq.symm hut
    · intro u hu
      by_cases hut : u = t
      · subst hut
        rw [hp'] at hu
        cases hu
      · rw [hframe u hut] at hu
        have hcontra := h3 u (Or.inr (Or.inl hu))
        rw [hlock] at hcontra
        injection hcontra with heq
        exact absurd heq.symm hut
    · intro u v hu
      by_cases hut : u = t
      · subst hut
        rw [hp'] at hu
        cases hu
      · rw [hframe u hut] at hu
        have hcontra := h5 u v hu
        rw [hregn] at hcontra
        cases hcontra
  | releaseStep t hpc hlock hl' hr' hc' hp' hframe =>
    refine ⟨by rwa [hc'], by rw [hr', hc']; exact h2, ?_, ?_, ?_⟩
    · intro u hu
      by_cases hut : u = t
      · subst hut
        rw [hp'] at hu
        rcases hu with h | h | h <;> cases h
      · rw [hframe u hut] at hu
        have hcontra := h3 u hu
        rw [hlock] at hcontra
        injection hcontra with heq
        exact absurd heq.symm hut
    · intro u hu
      by_cases hut : u = t
      · subst hut
        rw [hp'] at hu
        cases hu
      · rw [hframe u hut] at hu
        rw [hr']
        exact h4 u hu
    · intro u v hu
      by_cases hut : u = t
      · subst hut
        rw [hp'] at hu
        cases hu
      · rw [hframe u hut] at hu
        rw [hr']
        exact h5 u v hu
  | readStep t v0 hpc hreg hl' hr' hc' hp' hframe =>
    refine ⟨by rwa [hc'], by rw [hr', hc']; exact h2, ?_, ?_, ?_⟩
    · intro u hu
      by_cases hut : u = t
      · subst hut
        rw [hp'] at hu
        rcases hu with h | h | h <;> cases h
      · rw [hframe u hut] at hu
        rw [hl']
        exact h3 u hu
    · intro u hu
      by_cases hut : u = t
      · subst hut
        rw [hp'] at hu
        cases hu
      · rw [hframe u hut] at hu
        rw [hr']
        exact h4 u hu
    · intro u w hu
      by_cases hut : u = t
      · subst hut
        rw [hp'] at hu
        injection hu with hvw
        subst hvw
        rw [hr']
        exact hreg
      · rw [hframe u hut] at hu
        rw [hr']
        exact h5 u w hu

/-- The invariant holds in every reachable state. -/
theorem sinv_reach {n : Nat} {s : SysState n}
    (h : Reach n (initState n) s) : SInv s := by
  induction h with
  | refl => exact sinv_init n
  | tail _ hstep ih => exact sinv_step ih hstep

/-- C3: in every interleaved execution of `n ≥ 1` threads constructing the
same class through `Singleton.__call__` that runs all threads to
completion, the underlying constructor was invoked exactly once, and every
thread returned the one stored instance. -/
theorem singleton_constructor_once (n : Nat) (s : SysState n) (hn : 0 < n)
    (hreach : Reach n (initState n) s)
    (hdone : ∀ t, ∃ v, s.pcs t = PC.done v) :
    s.ctorCount = 1 ∧ ∃ v, s.reg = some v ∧ ∀ t, s.pcs t = PC.done v := by
  obtain ⟨h1, h2, h3, h4, h5⟩ := sinv_reach hreach
  obtain ⟨v0, hv0⟩ := hdone ⟨0, hn⟩
  have hreg : s.reg = some v0 := h5 _ v0 hv0
  have hcnt : s.ctorCount = 1 := by
    have hne : ¬s.ctorCount = 0 := fun hc => by
      have hrn := h2.mpr hc
      rw [hreg] at hrn
      cases hrn
    omega
  refine ⟨hcnt, v0, hreg, ?_⟩
  intro t
  obtain ⟨w, hw⟩ := hdone t
  have hrw := h5 t w hw
  rw [hreg] at hrw
  injection hrw with hvw
  rw [hw, hvw]

/-- C3 witness: the concrete two-thread run `initState 2 → execS9`; the
constructor ran exactly once and both threads returned instance `0`. -/
theorem singleton_constructor_once_witness :
    execS9.ctorCount = 1 ∧
    ∃ v, execS9.reg = some v ∧ ∀ t, execS9.pcs t = PC.done v := by
  apply singleton_constructor_once 2 execS9 (by decide) ?reach ?fin
  case reach =>
    have st1 : SStep 2 (initState 2) execS1 :=
      .acquireStep _ _ 0 rfl rfl rfl rfl rfl rfl (by decide)
    have st2 : SStep 2 execS1 execS2 :=
      .checkMissStep _ _ 0 rfl rfl rfl rfl rfl rfl rfl (by decide)
    have st3 : SStep 2 execS2 execS3 :=
      .createStep _ _ 0 rfl rfl rfl rfl rfl rfl (by decide)
    have st4 : SStep 2 execS3 execS4 :=
      .releaseStep _ _ 0 rfl rfl rfl rfl rfl rfl (by decide)
    have st5 : SStep 2 execS4 execS5 :=
      .readStep _ _ 0 0 rfl rfl rfl rfl rfl rfl (by decide)
    have st6 : SStep 2 execS5 execS6 :=
      .acquireStep _ _ 1 rfl rfl rfl rfl rfl rfl (by decide)
    have st7 : SStep 2 execS6 execS7 :=
      .checkHitStep _ _ 1 0 rfl rfl rfl rfl rfl rfl rfl (by decide)
    have st8 : SStep 2 execS7 execS8 :=
      .releaseStep _ _ 1 rfl rfl rfl rfl rfl rfl (by decide)
    have st9 : SStep 2 execS8 execS9 :=
      .readStep _ _ 1 0 rfl rfl rfl rfl rfl rfl (by decide)
    exact Relation.ReflTransGen.tail
      (Relation.ReflTransGen.tail
        (Relation.ReflTransGen.tail
          (Relation.ReflTransGen.tail
            (Relation.ReflTransGen.tail
              (Relation.ReflTransGen.tail
                (Relation.ReflTransGen.tail
                  (Relation.ReflTransGen.tail
                    (Relation.ReflTransGen.tail Relation.ReflTransGen.refl
                      st1) st2) st3) st4) st5) st6) st7) st8) st9
  case fin =>
    intro t
    refine ⟨0, ?_⟩
    fin_cases t <;> rfl

end Miroslava
